import Mathlib

/-!
Verification of the caption-generator pipeline (`src/app.py`).

The app is a linear Streamlit script: upload a video, save it to a scratch
file, extract its audio to MP3 via pydub/ffmpeg, transcribe the MP3 with a
remote speech-to-text call, let the user edit the transcript, and offer the
(possibly edited) text as a download.

The embedding below translates the script's own glue code directly.
External effects (the media toolchain, the remote transcription call, the
temp-file name supply, whether writing the scratch file raises) are
parameters of a `World` record; the script's control flow and the data it
passes between stages are modelled exactly as written.
-/

namespace GenNapisy

/-! ### UTF-8 at the code-point level

`bytes_for_download` is `text.encode("utf-8")`.  We model a Python string
as its list of Unicode scalar values (`List Nat`) and UTF-8 encoding by the
standard algorithm, written with `/`, `%` and `+` (the byte values are the
same as with shifts and masks).  The decoder below is a strict UTF-8
decoder: it rejects stray continuation bytes, overlong forms, surrogate
code points and values above `0x10FFFF`, like Python's `bytes.decode`. -/

/-- A Unicode scalar value: what a `str` element encodable to UTF-8 is
(Python `str.encode("utf-8")` raises on surrogates). Same predicate as
Lean's `Nat.isValidChar`. -/
def ValidScalar (c : Nat) : Prop :=
  c < 0xD800 ∨ (0xDFFF < c ∧ c < 0x110000)

instance (c : Nat) : Decidable (ValidScalar c) := by
  unfold ValidScalar; infer_instance

/-- UTF-8 encoding of one scalar value, byte values written arithmetically:
for example the lead byte `0xC0 ||| (c >>> 6)` is `0xC0 + c / 64`. -/
def utf8EncodeChar (c : Nat) : List Nat :=
  if c < 0x80 then [c]
  else if c < 0x800 then [0xC0 + c / 64, 0x80 + c % 64]
  else if c < 0x10000 then
    [0xE0 + c / 4096, 0x80 + (c / 64) % 64, 0x80 + c % 64]
  else
    [0xF0 + c / 262144, 0x80 + (c / 4096) % 64, 0x80 + (c / 64) % 64, 0x80 + c % 64]

/-- UTF-8 encoding of a scalar-value sequence. -/
def utf8EncodeCodes : List Nat → List Nat
  | [] => []
  | c :: cs => utf8EncodeChar c ++ utf8EncodeCodes cs

/-- Is `b` a UTF-8 continuation byte (`0b10xxxxxx`)? -/
def isCont (b : Nat) : Prop := 0x80 ≤ b ∧ b < 0xC0

instance (b : Nat) : Decidable (isCont b) := by
  unfold isCont; infer_instance

/-- One step of strict UTF-8 decoding: reads a single scalar value off the
front of the byte list, rejecting stray or missing continuation bytes,
overlong forms (lead bytes `0xC0`/`0xC1`, and range checks on the decoded
value), surrogates, values above `0x10FFFF`, and lead bytes `≥ 0xF5`. -/
def decodeOne : List Nat → Option (Nat × List Nat)
  | [] => none
  | b0 :: bs =>
    if b0 < 0x80 then some (b0, bs)
    else if b0 < 0xC2 then none
    else if b0 < 0xE0 then
      match bs with
      | b1 :: bs1 =>
        if isCont b1 then some ((b0 - 0xC0) * 64 + (b1 - 0x80), bs1) else none
      | [] => none
    else if b0 < 0xF0 then
      match bs with
      | b1 :: b2 :: bs2 =>
        if isCont b1 ∧ isCont b2 then
          if 0x800 ≤ (b0 - 0xE0) * 4096 + (b1 - 0x80) * 64 + (b2 - 0x80) ∧
              ¬(0xD800 ≤ (b0 - 0xE0) * 4096 + (b1 - 0x80) * 64 + (b2 - 0x80) ∧
                (b0 - 0xE0) * 4096 + (b1 - 0x80) * 64 + (b2 - 0x80) ≤ 0xDFFF) then
            some ((b0 - 0xE0) * 4096 + (b1 - 0x80) * 64 + (b2 - 0x80), bs2)
          else none
        else none
      | _ => none
    else if b0 < 0xF5 then
      match bs with
      | b1 :: b2 :: b3 :: bs3 =>
        if isCont b1 ∧ isCont b2 ∧ isCont b3 then
          if 0x10000 ≤
                (b0 - 0xF0) * 262144 + (b1 - 0x80) * 4096 + (b2 - 0x80) * 64 + (b3 - 0x80) ∧
              (b0 - 0xF0) * 262144 + (b1 - 0x80) * 4096 + (b2 - 0x80) * 64 + (b3 - 0x80) <
                0x110000 then
            some ((b0 - 0xF0) * 262144 + (b1 - 0x80) * 4096 + (b2 - 0x80) * 64 + (b3 - 0x80), bs3)
          else none
        else none
      | _ => none
    else none

/-- Decoding loop: `fuel` bounds the number of scalar values decoded; a
successful decode of `l` yields at most `l.length` of them. -/
def utf8DecodeLoop : Nat → List Nat → Option (List Nat)
  | _, [] => some []
  | 0, _ :: _ => none
  | fuel + 1, b :: bs =>
    match decodeOne (b :: bs) with
    | none => none
    | some (c, rest) => (utf8DecodeLoop fuel rest).map (fun cs => c :: cs)

/-- Strict UTF-8 decoding of a whole byte list (`none` on ill-formed input). -/
def utf8Decode (l : List Nat) : Option (List Nat) :=
  utf8DecodeLoop l.length l

/-! ### Strings as code points -/

/-- The Unicode scalar values of a string (the Python view of `str`). -/
def stringCodes (s : String) : List Nat := s.data.map Char.toNat

/-- Function `bytes_for_download` from app.py: `text.encode("utf-8")`, nothing else. -/
def bytes_for_download (text : String) : List Nat :=
  utf8EncodeCodes (stringCodes text)

/-! ### `pathlib.PurePath.suffix` -/

/-- Scan a reversed filename for its extension: `some l` returns the
characters standing after the last dot of the original name (here: before
the first dot of the reversed name), in reversed order; `none` when there
is no dot or the last dot is the first character of the name.  A dot met
first (the name ends in a dot) yields `some []`. -/
def findSuffixRev : List Char → Option (List Char)
  | [] => none
  | ch :: rest =>
    if ch = '.' then (if rest.isEmpty then none else some [])
    else (findSuffixRev rest).map (fun l => ch :: l)

/-- Model of Python `Path(name).suffix` for a plain filename: `name[i:]`
when `0 < i < len(name) - 1` for `i = name.rfind('.')`, else `""` (so no
dot, a leading dot as in `.bashrc`, and a trailing dot all give `""`). -/
def pathSuffix (name : String) : String :=
  match findSuffixRev name.data.reverse with
  | none => ""
  | some [] => ""
  | some ext => String.mk ('.' :: ext.reverse)

/-! ### The pipeline's data and helper functions -/

/-- An uploaded file as the script sees it: declared name and raw bytes. -/
structure UploadedFile where
  name : String
  content : List Nat

/-- A scratch file: its path and the bytes written to it. -/
structure TmpFile where
  path : String
  content : List Nat

/-- Function `save_uploaded_file_to_temp` from app.py (lines 74-81): pick the
temp-file suffix as `Path(uploaded_file.name).suffix or ".mp4"` (Python
`or`: the empty suffix is falsy), write the uploaded bytes to a fresh
`NamedTemporaryFile` whose OS-chosen base name `tmpBase` is dot-free, and
return its path. -/
def save_uploaded_file_to_temp (tmpBase : String) (uploaded_file : UploadedFile) : TmpFile :=
  { path := tmpBase ++ (if pathSuffix uploaded_file.name = "" then ".mp4"
      else pathSuffix uploaded_file.name),
    content := uploaded_file.content }

/-- A value returned by the transcription SDK call: either a `str`, or some
other response object carried here with its `str()` rendering. -/
inductive PyValue where
  | str : String → PyValue
  | obj : String → PyValue

/-- Python `str(v)`. -/
def pyStr : PyValue → String
  | .str s => s
  | .obj r => r

/-- Line 111 of app.py,
`transcription if isinstance(transcription, str) else str(transcription)`:
a `str` response passes through, anything else is coerced with `str()`. -/
def coerceStr (t : PyValue) : String :=
  match t with
  | .str s => s
  | v => pyStr v

/-- The external world one script run executes against. `Except.error`
means the corresponding library call raised an exception. -/
structure World where
  /-- Outcome of writing the upload to its scratch file: `some msg` means
  `tmp.write` raised (for example, disk full). -/
  saveErr : Option String
  /-- Base name handed out by `tempfile.NamedTemporaryFile` (dot-free). -/
  videoTmpBase : String
  /-- Path handed out by `tempfile.mkstemp(suffix=".mp3")`. -/
  audioTmpPath : String
  /-- Call `AudioSegment.from_file` followed by `export(format="mp3")`: the video
  bytes to MP3 bytes, raising on a missing audio stream, a corrupt
  container, or a missing toolchain. -/
  decode : List Nat → Except String (List Nat)
  /-- Call `client.audio.transcriptions.create` on the audio bytes and the
  requested `response_format`. -/
  whisper : List Nat → String → Except String PyValue

/-- Function `extract_audio_to_mp3` from app.py (lines 84-93): decode the video file
with pydub, export the audio as MP3 to a fresh temp path, return it. -/
def extract_audio_to_mp3 (w : World) (video : TmpFile) : Except String TmpFile :=
  match w.decode video.content with
  | .error e => .error e
  | .ok mp3 => .ok { path := w.audioTmpPath, content := mp3 }

/-- Function `transcribe_audio` from app.py (lines 96-111): call the remote model on
the audio file with the requested format; return the response when it is
already a `str`, else `str(response)`. -/
def transcribe_audio (w : World) (audio : TmpFile) (response_format : String) :
    Except String String :=
  match w.whisper audio.content response_format with
  | .error e => .error e
  | .ok t => .ok (coerceStr t)

/-! ### The script body -/

/-- The widget values of one script run: the upload, the two buttons, the
format selectbox, and the user's edit of the text area as a function of the
area's initial value (`edit id` would mean "left unchanged"). -/
structure Inputs where
  uploaded : Option UploadedFile
  do_extract : Bool
  resp_format : String
  do_transcribe : Bool
  edit : String → String

/-- The arguments of one `st.download_button` call. -/
structure Download where
  label : String
  data : List Nat
  file_name : String
  mime : String
  deriving DecidableEq

/-- Everything one script run rendered. -/
structure UIState where
  videos : List (List Nat) := []
  audios : List String := []
  successes : List String := []
  errors : List String := []
  infos : List String := []
  downloads : List Download := []
  /-- The MP3 scratch file produced by extraction, when it ran and succeeded. -/
  audioArtifact : Option TmpFile := none
  /-- The argument pairs of the calls made to `transcribe_audio`. -/
  transcribeCalls : List (TmpFile × String) := []

/-- Text shown by `st.error` in the catch-all handler for exception message `e`. -/
def errMsg (e : String) : String := "Wystąpił błąd: " ++ e

/-- The `st.info` hint shown next to any caught error (lines 184-188). -/
def ffmpegHint : String :=
  "Jeśli to błąd ffmpeg/ffprobe, upewnij się, że:\n" ++
  "- w Streamlit Cloud jest zainstalowany pakiet systemowy `ffmpeg` (patrz packages.txt),\n" ++
  "- lokalnie masz ffmpeg w PATH lub podaj FFMPEG_DIR w Secrets."

/-- One run of the script body, app.py lines 121-190. `Except.error e`
means an exception escaped the script uncaught; `Except.ok st` says the run
ended normally rendering `st`. Saving the upload to its scratch file
(line 133) happens before the `try` of line 144, so a raise there escapes;
`extract_audio_to_mp3` and `transcribe_audio` run inside the `try`, whose
`except Exception` renders `st.error(f-string of e)` and `st.info(hint)`. -/
def mainFlow (w : World) (inp : Inputs) : Except String UIState :=
  match inp.uploaded with
  | none => .ok { infos := ["Załaduj plik wideo, aby rozpocząć."] }
  | some uploaded =>
    match w.saveErr with
    | some e => .error e
    | none =>
      let video_tmp := save_uploaded_file_to_temp w.videoTmpBase uploaded
      if inp.do_extract then
        match extract_audio_to_mp3 w video_tmp with
        | .error e =>
          .ok { videos := [uploaded.content],
                errors := [errMsg e], infos := [ffmpegHint] }
        | .ok audio_mp3 =>
          if inp.do_transcribe then
            match transcribe_audio w audio_mp3 inp.resp_format with
            | .error e =>
              .ok { videos := [uploaded.content], audios := [audio_mp3.path],
                    successes := ["Audio wyodrębnione ✔️"],
                    audioArtifact := some audio_mp3,
                    transcribeCalls := [(audio_mp3, inp.resp_format)],
                    errors := [errMsg e], infos := [ffmpegHint] }
            | .ok captions =>
              .ok { videos := [uploaded.content], audios := [audio_mp3.path],
                    successes := ["Audio wyodrębnione ✔️", "Transkrypcja zakończona ✔️"],
                    audioArtifact := some audio_mp3,
                    transcribeCalls := [(audio_mp3, inp.resp_format)],
                    downloads :=
                      { label := "⬇️ Pobierz napisy",
                        data := bytes_for_download (inp.edit captions),
                        file_name := if inp.resp_format = "srt" then "captions.srt"
                          else "captions.txt",
                        mime := "text/plain" } ::
                      (if inp.resp_format = "srt" then
                        [{ label := "⬇️ Pobierz napisy jako .txt (bez czasu)",
                           data := bytes_for_download (inp.edit captions),
                           file_name := "captions.txt", mime := "text/plain" }]
                      else []) }
          else
            .ok { videos := [uploaded.content], audios := [audio_mp3.path],
                  successes := ["Audio wyodrębnione ✔️"],
                  audioArtifact := some audio_mp3 }
      else
        .ok { videos := [uploaded.content] }

/-! ### Startup key resolution (app.py lines 17-32) -/

/-- Python truthiness test `not key` on the current value: `None` and the
empty string are falsy. -/
def pyFalsy : Option String → Bool
  | none => true
  | some v => v == ""

/-- Value of `os.getenv("OPENAI_API_KEY")` as observed after `load_dotenv()`.
`load_dotenv` is python-dotenv called with its default `override=False`: a
variable already present in the process environment is left as it is, so
the process environment masks the `.env` file value. -/
def getenv_after_load_dotenv (dotenvFile procEnv : Option String) : Option String :=
  match procEnv with
  | some v => some v
  | none => dotenvFile

/-- Key resolution, app.py lines 17-28: read `st.secrets` (an exception
there, or a store without the entry, leaves `None`); if the result is
falsy, `load_dotenv()` then `os.getenv("OPENAI_API_KEY")`. -/
def resolve_OPENAI_API_KEY (secrets dotenvFile procEnv : Option String) : Option String :=
  if pyFalsy secrets then getenv_after_load_dotenv dotenvFile procEnv else secrets

/-- Outcome of lines 30-32: either the script halts at `st.stop()` after
showing `st.error`, before any UI is built, or it runs with the key. -/
inductive Startup where
  | halted : String → Startup
  | running : String → Startup
  deriving DecidableEq

/-- app.py lines 30-32: a still-falsy key halts startup with the error. -/
def startup (secrets dotenvFile procEnv : Option String) : Startup :=
  if pyFalsy (resolve_OPENAI_API_KEY secrets dotenvFile procEnv) then
    .halted "Brak OPENAI_API_KEY. Dodaj go w Streamlit Secrets lub w pliku .env"
  else
    .running ((resolve_OPENAI_API_KEY secrets dotenvFile procEnv).getD "")

/-- The layered order exactly as the claim words it: the first non-falsy
source among secret store, then `.env` file, then process environment.
(Stated from the spec's words, for comparison with
`resolve_OPENAI_API_KEY`, which is translated from the code.) -/
def resolveKeyClaimOrder (secrets dotenvFile procEnv : Option String) : Option String :=
  if pyFalsy secrets then
    (if pyFalsy dotenvFile then procEnv else dotenvFile)
  else secrets

/-! ### Upload widget configuration (app.py lines 122-126) -/

/-- The extension whitelist passed to `st.file_uploader` as `type=[...]`. -/
def uploader_types : List String := ["mp4", "mov", "mkv", "webm", "avi"]

/-- The `accept_multiple_files` argument of the `st.file_uploader` call. -/
def accept_multiple_files : Bool := false

/-- Characters after the first dot of a reversed filename (reversed), i.e.
after the last dot of the name; `none` when the name has no dot. -/
def extRev : List Char → Option (List Char)
  | [] => none
  | ch :: rest =>
    if ch = '.' then some []
    else (extRev rest).map (fun l => ch :: l)

/-- The declared extension of a filename: the characters after its last
dot, `""` when there is none. Streamlit's uploader matches this against
the `type` whitelist. -/
def declaredExt (name : String) : String :=
  match extRev name.data.reverse with
  | none => ""
  | some l => String.mk l.reverse

/-- Does the upload widget accept a file with declared name `name`? -/
def acceptsFile (name : String) : Bool :=
  uploader_types.contains (declaredExt name)

/-! ### Observers on a run's outcome -/

/-- The run ended normally and the exception message `e` was surfaced: the
catch-all handler rendered `st.error` on it together with the toolchain
hint in `st.info`. -/
def surfaced (e : String) (r : Except String UIState) : Prop :=
  ∃ st, r = .ok st ∧ st.errors = [errMsg e] ∧ st.infos = [ffmpegHint]

/-- The MP3 scratch file produced by extraction in a run, if any. -/
def audioArtifactOf (r : Except String UIState) : Option TmpFile :=
  match r with
  | .ok st => st.audioArtifact
  | .error _ => none

/-- The audio files handed to the Transcriber during a run. -/
def transcriberAudioOf (r : Except String UIState) : List TmpFile :=
  match r with
  | .ok st => st.transcribeCalls.map Prod.fst
  | .error _ => []

/-! ### Lemmas -/

lemma utf8DecodeLoop_succ (fuel : Nat) (l : List Nat) (h : l ≠ []) :
    utf8DecodeLoop (fuel + 1) l =
      match decodeOne l with
      | none => none
      | some (c, rest) => (utf8DecodeLoop fuel rest).map (fun cs => c :: cs) := by
  cases l with
  | nil => exact absurd rfl h
  | cons b bs => rfl

lemma utf8EncodeChar_ne_nil (c : Nat) : utf8EncodeChar c ≠ [] := by
  unfold utf8EncodeChar
  split <;> [skip; split <;> [skip; split]] <;> simp

lemma utf8EncodeChar_length_pos (c : Nat) : 1 ≤ (utf8EncodeChar c).length := by
  unfold utf8EncodeChar
  split <;> [skip; split <;> [skip; split]] <;> simp

lemma utf8EncodeCodes_length (cs : List Nat) :
    cs.length ≤ (utf8EncodeCodes cs).length := by
  induction cs with
  | nil => simp [utf8EncodeCodes]
  | cons c cs ih =>
    rw [utf8EncodeCodes, List.length_append, List.length_cons]
    have := utf8EncodeChar_length_pos c
    omega

/-- The decode step inverts the per-character encoder. -/
lemma decodeOne_encodeChar (c : Nat) (h : ValidScalar c) (rest : List Nat) :
    decodeOne (utf8EncodeChar c ++ rest) = some (c, rest) := by
  have hvalid : c < 0xD800 ∨ (0xDFFF < c ∧ c < 0x110000) := h
  rcases Nat.lt_or_ge c 0x80 with h1 | h1
  · have henc : utf8EncodeChar c = [c] := by
      unfold utf8EncodeChar; rw [if_pos h1]
    rw [henc]
    simp only [List.cons_append, List.nil_append, decodeOne.eq_def]
    simp only [if_pos h1]
  · rcases Nat.lt_or_ge c 0x800 with h2 | h2
    · have henc : utf8EncodeChar c = [0xC0 + c / 64, 0x80 + c % 64] := by
        unfold utf8EncodeChar; rw [if_neg (show ¬ c < 0x80 by omega), if_pos h2]
      have e1 : ¬ (0xC0 + c / 64 < 0x80) := by omega
      have e2 : ¬ (0xC0 + c / 64 < 0xC2) := by omega
      have e3 : 0xC0 + c / 64 < 0xE0 := by omega
      have e4 : isCont (0x80 + c % 64) := by unfold isCont; omega
      rw [henc]
      simp only [List.cons_append, List.nil_append, decodeOne.eq_def]
      simp [e1, e2, e3, e4]
      all_goals omega
    · rcases Nat.lt_or_ge c 0x10000 with h3 | h3
      · have henc : utf8EncodeChar c =
            [0xE0 + c / 4096, 0x80 + (c / 64) % 64, 0x80 + c % 64] := by
          unfold utf8EncodeChar
          rw [if_neg (show ¬ c < 0x80 by omega), if_neg (show ¬ c < 0x800 by omega), if_pos h3]
        have e1 : ¬ (0xE0 + c / 4096 < 0x80) := by omega
        have e2 : ¬ (0xE0 + c / 4096 < 0xC2) := by omega
        have e3 : ¬ (0xE0 + c / 4096 < 0xE0) := by omega
        have e4 : 0xE0 + c / 4096 < 0xF0 := by omega
        have e5 : isCont (0x80 + (c / 64) % 64) ∧ isCont (0x80 + c % 64) := by
          unfold isCont; omega
        have e6 : 0x800 ≤ (0xE0 + c / 4096 - 0xE0) * 4096 + (0x80 + (c / 64) % 64 - 0x80) * 64 +
              (0x80 + c % 64 - 0x80) ∧
            ¬(0xD800 ≤ (0xE0 + c / 4096 - 0xE0) * 4096 + (0x80 + (c / 64) % 64 - 0x80) * 64 +
                (0x80 + c % 64 - 0x80) ∧
              (0xE0 + c / 4096 - 0xE0) * 4096 + (0x80 + (c / 64) % 64 - 0x80) * 64 +
                (0x80 + c % 64 - 0x80) ≤ 0xDFFF) := by
          omega
        rw [henc]
        simp only [List.cons_append, List.nil_append, decodeOne.eq_def]
        simp [e1, e2, e3, e4, e5, e6]
        all_goals omega
      · have h4 : c < 0x110000 := by omega
        have henc : utf8EncodeChar c =
            [0xF0 + c / 262144, 0x80 + (c / 4096) % 64, 0x80 + (c / 64) % 64, 0x80 + c % 64] := by
          unfold utf8EncodeChar
          rw [if_neg (show ¬ c < 0x80 by omega), if_neg (show ¬ c < 0x800 by omega),
            if_neg (show ¬ c < 0x10000 by omega)]
        have e1 : ¬ (0xF0 + c / 262144 < 0x80) := by omega
        have e2 : ¬ (0xF0 + c / 262144 < 0xC2) := by omega
        have e3 : ¬ (0xF0 + c / 262144 < 0xE0) := by omega
        have e4 : ¬ (0xF0 + c / 262144 < 0xF0) := by omega
        have e5 : 0xF0 + c / 262144 < 0xF5 := by omega
        have e6 : isCont (0x80 + (c / 4096) % 64) ∧ isCont (0x80 + (c / 64) % 64) ∧
            isCont (0x80 + c % 64) := by
          unfold isCont; omega
        have e7 : 0x10000 ≤ (0xF0 + c / 262144 - 0xF0) * 262144 +
              (0x80 + (c / 4096) % 64 - 0x80) * 4096 + (0x80 + (c / 64) % 64 - 0x80) * 64 +
              (0x80 + c % 64 - 0x80) ∧
            (0xF0 + c / 262144 - 0xF0) * 262144 + (0x80 + (c / 4096) % 64 - 0x80) * 4096 +
              (0x80 + (c / 64) % 64 - 0x80) * 64 + (0x80 + c % 64 - 0x80) < 0x110000 := by
          omega
        rw [henc]
        simp only [List.cons_append, List.nil_append, decodeOne.eq_def]
        simp [e1, e2, e3, e4, e5, e6, e7]
        all_goals omega

lemma utf8DecodeLoop_encode (cs : List Nat) (h : ∀ c ∈ cs, ValidScalar c) :
    ∀ fuel, cs.length ≤ fuel → utf8DecodeLoop fuel (utf8EncodeCodes cs) = some cs := by
  induction cs with
  | nil => intro fuel _; cases fuel <;> rfl
  | cons c cs ih =>
    intro fuel hf
    have hc : ValidScalar c := h c (List.mem_cons_self c cs)
    have hcs : ∀ x ∈ cs, ValidScalar x := fun x hx => h x (List.mem_cons_of_mem c hx)
    obtain ⟨f, rfl⟩ : ∃ f, fuel = f + 1 := by
      cases fuel with
      | zero => simp at hf
      | succ f => exact ⟨f, rfl⟩
    rw [utf8EncodeCodes]
    rw [utf8DecodeLoop_succ _ _ (by
      intro hnil
      exact utf8EncodeChar_ne_nil c (List.append_eq_nil.mp hnil).1)]
    rw [decodeOne_encodeChar c hc]
    show (utf8DecodeLoop f (utf8EncodeCodes cs)).map (fun l => c :: l) = some (c :: cs)
    rw [ih hcs f (by simp only [List.length_cons] at hf; omega)]
    rfl

/-- Round trip: a strict UTF-8 decode of the UTF-8 encoding of any sequence
of Unicode scalar values returns exactly that sequence. -/
lemma utf8Decode_utf8EncodeCodes (cs : List Nat) (h : ∀ c ∈ cs, ValidScalar c) :
    utf8Decode (utf8EncodeCodes cs) = some cs := by
  unfold utf8Decode
  exact utf8DecodeLoop_encode cs h _ (le_trans (utf8EncodeCodes_length cs) le_rfl)


lemma stringCodes_valid (s : String) : ∀ c ∈ stringCodes s, ValidScalar c := by
  intro c hc
  unfold stringCodes at hc
  obtain ⟨ch, _, rfl⟩ := List.mem_map.mp hc
  have h := ch.valid
  unfold UInt32.isValidChar Nat.isValidChar at h
  exact h

lemma coerceStr_eq_pyStr (t : PyValue) : coerceStr t = pyStr t := by
  cases t <;> rfl

lemma findSuffixRev_append (l r : List Char) (hl : '.' ∉ l) (hr : r ≠ []) :
    findSuffixRev (l ++ '.' :: r) = some l := by
  induction l with
  | nil =>
    have hre : r.isEmpty = false := by
      cases r with
      | nil => exact absurd rfl hr
      | cons x xs => rfl
    simp only [List.nil_append, findSuffixRev, if_pos rfl, hre]
    rfl
  | cons ch rest ih =>
    have h1 : ¬ (ch = '.') := fun he => hl (he ▸ List.mem_cons_self ch rest)
    have h2 : '.' ∉ rest := fun hm => hl (List.mem_cons_of_mem ch hm)
    simp only [List.cons_append, findSuffixRev, if_neg h1, List.append_eq, ih h2,
      Option.map_some']

lemma findSuffixRev_not_dot (l : List Char) :
    ∀ ext, findSuffixRev l = some ext → '.' ∉ ext := by
  induction l with
  | nil => intro ext h; simp [findSuffixRev] at h
  | cons ch rest ih =>
    intro ext h
    by_cases hch : ch = '.'
    · simp only [findSuffixRev, if_pos hch] at h
      by_cases hre : rest.isEmpty
      · simp [hre] at h
      · simp only [hre, if_neg, Bool.false_eq_true, ite_false, Option.some.injEq] at h
        subst h
        simp
    · simp only [findSuffixRev, if_neg hch] at h
      obtain ⟨l', hl', rfl⟩ := Option.map_eq_some'.mp h
      intro hm
      rcases List.mem_cons.mp hm with he | hm'
      · exact hch he.symm
      · exact ih l' hl' hm'

lemma pathSuffix_shape (name : String) :
    pathSuffix name = "" ∨
      ∃ ext : List Char, ext ≠ [] ∧ '.' ∉ ext ∧ pathSuffix name = String.mk ('.' :: ext) := by
  unfold pathSuffix
  cases hf : findSuffixRev name.data.reverse with
  | none => left; rfl
  | some l =>
    cases l with
    | nil => left; rfl
    | cons x xs =>
      right
      refine ⟨(x :: xs).reverse, by simp, ?_, rfl⟩
      intro hm
      exact findSuffixRev_not_dot _ _ hf (List.mem_reverse.mp hm)

lemma pathSuffix_append_ext (tmpBase : String) (ext : List Char)
    (h1 : tmpBase.data ≠ []) (hne : ext ≠ []) (hnd : '.' ∉ ext) :
    pathSuffix (tmpBase ++ String.mk ('.' :: ext)) = String.mk ('.' :: ext) := by
  unfold pathSuffix
  have hdata : (tmpBase ++ String.mk ('.' :: ext)).data = tmpBase.data ++ '.' :: ext := by
    rw [String.data_append]
  have hrev : (tmpBase.data ++ '.' :: ext).reverse =
      ext.reverse ++ '.' :: tmpBase.data.reverse := by
    rw [List.reverse_append, List.reverse_cons, List.append_assoc]
    rfl
  have hnd' : '.' ∉ ext.reverse := fun hm => hnd (List.mem_reverse.mp hm)
  have h1' : tmpBase.data.reverse ≠ [] := by
    intro he
    exact h1 (by simpa using congrArg List.reverse he)
  rw [hdata, hrev, findSuffixRev_append _ _ hnd' h1']
  obtain ⟨y, ys, hys⟩ : ∃ y ys, ext.reverse = y :: ys := by
    cases he : ext.reverse with
    | nil => exact absurd (by simpa using congrArg List.reverse he) hne
    | cons y ys => exact ⟨y, ys, rfl⟩
  rw [hys]
  show String.mk ('.' :: (y :: ys).reverse) = String.mk ('.' :: ext)
  rw [← hys, List.reverse_reverse]

/-! ### Claim theorems -/

/-- C1: for every edited transcript string, the downloadable artifact is
byte-for-byte the UTF-8 encoding of that string — no other transformation
of content — and decoding the downloaded bytes as UTF-8 gives back exactly
the edited text (round-trip: edit, download, decode equals edited text). -/
theorem download_bytes_utf8_roundtrip (edited : String) :
    bytes_for_download edited = utf8EncodeCodes (stringCodes edited) ∧
    utf8Decode (bytes_for_download edited) = some (stringCodes edited) :=
  ⟨rfl, utf8Decode_utf8EncodeCodes _ (stringCodes_valid edited)⟩

/-- C7: the Transcriber always yields a plain string: a `str` response is
returned as-is; any non-string response is coerced to its `str()` form. -/
theorem transcriber_string_coercion (w : World) (audio : TmpFile) (fmt : String) :
    (∀ s, w.whisper audio.content fmt = .ok (.str s) →
      transcribe_audio w audio fmt = .ok s) ∧
    (∀ r, w.whisper audio.content fmt = .ok (.obj r) →
      transcribe_audio w audio fmt = .ok (pyStr (.obj r))) := by
  constructor
  · intro s hw
    unfold transcribe_audio
    rw [hw]
    rfl
  · intro r hw
    unfold transcribe_audio
    rw [hw]
    rfl

/-- C7 witness at a concrete world and audio file. -/
theorem transcriber_string_coercion_witness :
    transcribe_audio
        { saveErr := none, videoTmpBase := "tmpvid", audioTmpPath := "tmpaud.mp3",
          decode := fun _ => Except.ok [], whisper := fun _ _ => Except.ok (.str "hello") }
        { path := "tmpaud.mp3", content := [1, 2] } "srt" = .ok "hello" :=
  (transcriber_string_coercion _ _ "srt").1 "hello" rfl

/-- C8: the scratch file holds exactly the uploaded bytes; its extension is
the uploaded filename's extension, defaulting to `.mp4` when the uploaded
filename has none (the OS-chosen temp base name is nonempty). -/
theorem saved_scratch_file_spec (tmpBase : String) (uploaded : UploadedFile)
    (h1 : tmpBase.data ≠ []) :
    (save_uploaded_file_to_temp tmpBase uploaded).content = uploaded.content ∧
    (pathSuffix uploaded.name ≠ "" →
      pathSuffix (save_uploaded_file_to_temp tmpBase uploaded).path =
        pathSuffix uploaded.name) ∧
    (pathSuffix uploaded.name = "" →
      pathSuffix (save_uploaded_file_to_temp tmpBase uploaded).path = ".mp4") := by
  refine ⟨rfl, ?_, ?_⟩
  · intro hns
    rcases pathSuffix_shape uploaded.name with h | ⟨ext, hne, hnd, heq⟩
    · exact absurd h hns
    · show pathSuffix (tmpBase ++ (if pathSuffix uploaded.name = "" then ".mp4"
        else pathSuffix uploaded.name)) = _
      rw [if_neg hns, heq, pathSuffix_append_ext tmpBase ext h1 hne hnd]
  · intro hns
    show pathSuffix (tmpBase ++ (if pathSuffix uploaded.name = "" then ".mp4"
      else pathSuffix uploaded.name)) = _
    rw [if_pos hns]
    have hmp4 : (".mp4" : String) = String.mk ('.' :: ['m', 'p', '4']) := by decide
    rw [hmp4, pathSuffix_append_ext tmpBase ['m', 'p', '4'] h1 (by simp) (by decide)]

/-- C8 witness: a concrete upload with extension, and one without. -/
theorem saved_scratch_file_spec_witness :
    (save_uploaded_file_to_temp "tmpvid" ⟨"clip.mov", [7, 8]⟩).content = [7, 8] ∧
    pathSuffix (save_uploaded_file_to_temp "tmpvid" ⟨"clip.mov", [7, 8]⟩).path = ".mov" ∧
    pathSuffix (save_uploaded_file_to_temp "tmpvid" ⟨"clip", [7, 8]⟩).path = ".mp4" := by
  have hA := saved_scratch_file_spec "tmpvid" ⟨"clip.mov", [7, 8]⟩ (by decide)
  have hB := saved_scratch_file_spec "tmpvid" ⟨"clip", [7, 8]⟩ (by decide)
  refine ⟨hA.1, ?_, hB.2.2 (by decide)⟩
  rw [hA.2.1 (by decide)]
  decide

/-- C10: an exception raised while persisting the upload to its scratch
file escapes the script uncaught — the catch-all handler around extraction
and transcription never sees it, so nothing is rendered via the
error-display path. -/
theorem save_exception_escapes (w : World) (inp : Inputs) (uploaded : UploadedFile)
    (e : String) (hu : inp.uploaded = some uploaded) (hs : w.saveErr = some e) :
    mainFlow w inp = .error e := by
  unfold mainFlow
  rw [hu, hs]

/-- C10 witness at a concrete world and inputs. -/
theorem save_exception_escapes_witness :
    mainFlow
        { saveErr := some "disk full", videoTmpBase := "tmpvid", audioTmpPath := "tmpaud.mp3",
          decode := fun _ => Except.ok [], whisper := fun _ _ => Except.ok (.str "x") }
        { uploaded := some ⟨"clip.mp4", [1]⟩, do_extract := true, resp_format := "srt",
          do_transcribe := true, edit := fun s => s } = .error "disk full" :=
  save_exception_escapes _ _ ⟨"clip.mp4", [1]⟩ "disk full" rfl rfl

/-- C2, counterexample: with no platform secret, `.env` carrying one key
and the process environment another, the code resolves the
process-environment value — not the `.env` value that the claimed layering
(secret store, then `.env`, then process environment) would pick, because
`load_dotenv()` does not override variables already present in the process
environment. -/
theorem apiKey_order_counterexample :
    resolve_OPENAI_API_KEY none (some "key-from-dotenv") (some "key-from-procenv") =
        some "key-from-procenv" ∧
    resolveKeyClaimOrder none (some "key-from-dotenv") (some "key-from-procenv") =
        some "key-from-dotenv" ∧
    resolve_OPENAI_API_KEY none (some "key-from-dotenv") (some "key-from-procenv") ≠
      resolveKeyClaimOrder none (some "key-from-dotenv") (some "key-from-procenv") := by
  refine ⟨rfl, rfl, ?_⟩
  decide

/-- C2, amended: the key is resolved platform secret store first, then the
process environment, then the `.env` file (a variable already present in
the process environment masks the `.env` value); if no source yields a
key, startup halts with the user-visible error before any UI is built. -/
theorem apiKey_layering (secrets dotenvFile procEnv : Option String) :
    (pyFalsy secrets = false →
      resolve_OPENAI_API_KEY secrets dotenvFile procEnv = secrets) ∧
    (pyFalsy secrets = true → ∀ v, procEnv = some v →
      resolve_OPENAI_API_KEY secrets dotenvFile procEnv = some v) ∧
    (pyFalsy secrets = true → procEnv = none →
      resolve_OPENAI_API_KEY secrets dotenvFile procEnv = dotenvFile) ∧
    (pyFalsy secrets = true → pyFalsy dotenvFile = true → pyFalsy procEnv = true →
      startup secrets dotenvFile procEnv =
        .halted "Brak OPENAI_API_KEY. Dodaj go w Streamlit Secrets lub w pliku .env") := by
  refine ⟨?_, ?_, ?_, ?_⟩
  · intro h
    simp [resolve_OPENAI_API_KEY, h]
  · intro h v hv
    simp [resolve_OPENAI_API_KEY, getenv_after_load_dotenv, h, hv]
  · intro h hv
    simp [resolve_OPENAI_API_KEY, getenv_after_load_dotenv, h, hv]
  · intro h1 h2 h3
    have hres : pyFalsy (resolve_OPENAI_API_KEY secrets dotenvFile procEnv) = true := by
      cases hp : procEnv with
      | none => simp [resolve_OPENAI_API_KEY, getenv_after_load_dotenv, h1, hp, h2]
      | some v => simp [resolve_OPENAI_API_KEY, getenv_after_load_dotenv, h1, hp, hp ▸ h3]
    simp [startup, hres]

/-- C2 witness: a key found in the secret store is used; with every source
empty, startup halts with the error message. -/
theorem apiKey_layering_witness :
    resolve_OPENAI_API_KEY (some "sk-abc") none none = some "sk-abc" ∧
    startup none none none =
      .halted "Brak OPENAI_API_KEY. Dodaj go w Streamlit Secrets lub w pliku .env" :=
  ⟨(apiKey_layering (some "sk-abc") none none).1 (by decide),
   (apiKey_layering none none none).2.2.2 rfl rfl rfl⟩

/-- C6: the upload widget accepts exactly the files whose declared
extension is on the fixed whitelist mp4, mov, mkv, webm, avi, and accepts
one file at a time. -/
theorem uploader_whitelist_single_file (name : String) :
    (acceptsFile name = true ↔
      (declaredExt name = "mp4" ∨ declaredExt name = "mov" ∨ declaredExt name = "mkv" ∨
        declaredExt name = "webm" ∨ declaredExt name = "avi")) ∧
    accept_multiple_files = false := by
  refine ⟨?_, rfl⟩
  unfold acceptsFile uploader_types
  simp [List.contains, List.elem_eq_mem, List.mem_cons, decide_eq_true_eq]

/-- C3: every exception raised during audio extraction (for example, a
video lacking an audio track, or a corrupt container) or during
transcription is caught by the top-level handler: the run ends normally
and the exception's message is displayed together with the generic
media-toolchain hint, instead of crashing the process. -/
theorem pipeline_errors_surfaced (w : World) (inp : Inputs) (uploaded : UploadedFile)
    (e : String) (hu : inp.uploaded = some uploaded) (hs : w.saveErr = none)
    (hx : inp.do_extract = true) :
    (w.decode uploaded.content = .error e → surfaced e (mainFlow w inp)) ∧
    (∀ mp3, w.decode uploaded.content = .ok mp3 → inp.do_transcribe = true →
      w.whisper mp3 inp.resp_format = .error e → surfaced e (mainFlow w inp)) := by
  constructor
  · intro hd
    refine ⟨{ videos := [uploaded.content], errors := [errMsg e], infos := [ffmpegHint] },
      ?_, rfl, rfl⟩
    simp [mainFlow, extract_audio_to_mp3, save_uploaded_file_to_temp, hu, hs, hx, hd]
  · intro mp3 hd ht hw
    refine ⟨{ videos := [uploaded.content]
              audios := [w.audioTmpPath]
              successes := ["Audio wyodrębnione ✔️"]
              errors := [errMsg e]
              infos := [ffmpegHint]
              audioArtifact := some { path := w.audioTmpPath, content := mp3 }
              transcribeCalls := [({ path := w.audioTmpPath, content := mp3 },
                inp.resp_format)] },
      ?_, rfl, rfl⟩
    simp [mainFlow, extract_audio_to_mp3, transcribe_audio, save_uploaded_file_to_temp,
      hu, hs, hx, hd, ht, hw]

/-- C3 witness: a concrete extraction failure is surfaced. -/
theorem pipeline_errors_surfaced_witness :
    surfaced "no audio stream"
      (mainFlow
        { saveErr := none, videoTmpBase := "tmpvid", audioTmpPath := "tmpaud.mp3",
          decode := fun _ => Except.error "no audio stream",
          whisper := fun _ _ => Except.ok (.str "x") }
        { uploaded := some ⟨"clip.mp4", [1]⟩, do_extract := true, resp_format := "srt",
          do_transcribe := true, edit := fun s => s }) :=
  (pipeline_errors_surfaced _ _ ⟨"clip.mp4", [1]⟩ "no audio stream" rfl rfl rfl).1 rfl

/-- C4: two runs that differ only in the selected output format produce the
same extraction output (the audio artifact is identical), and hand the same
audio to the Transcriber — the format selection changes nothing else. -/
theorem format_change_only_affects_transcription (w : World) (inp : Inputs) (f1 f2 : String) :
    audioArtifactOf (mainFlow w { inp with resp_format := f1 }) =
      audioArtifactOf (mainFlow w { inp with resp_format := f2 }) ∧
    transcriberAudioOf (mainFlow w { inp with resp_format := f1 }) =
      transcriberAudioOf (mainFlow w { inp with resp_format := f2 }) := by
  cases hu : inp.uploaded with
  | none => simp [mainFlow, hu, audioArtifactOf, transcriberAudioOf]
  | some uploaded =>
    cases hs : w.saveErr with
    | some e => simp [mainFlow, hu, hs, audioArtifactOf, transcriberAudioOf]
    | none =>
      cases hx : inp.do_extract with
      | false => simp [mainFlow, hu, hs, hx, audioArtifactOf, transcriberAudioOf]
      | true =>
        cases hd : w.decode uploaded.content with
        | error e =>
          simp [mainFlow, extract_audio_to_mp3, save_uploaded_file_to_temp, hu, hs, hx, hd,
            audioArtifactOf, transcriberAudioOf]
        | ok mp3 =>
          cases ht : inp.do_transcribe with
          | false =>
            simp [mainFlow, extract_audio_to_mp3, save_uploaded_file_to_temp, hu, hs, hx, hd,
              ht, audioArtifactOf, transcriberAudioOf]
          | true =>
            cases hw1 : w.whisper mp3 f1 <;> cases hw2 : w.whisper mp3 f2 <;>
              simp [mainFlow, extract_audio_to_mp3, transcribe_audio,
                save_uploaded_file_to_temp, hu, hs, hx, hd, ht, hw1, hw2,
                audioArtifactOf, transcriberAudioOf]

/-- C5: the downloadable artifact is named `captions.srt` exactly when the
selected format is `srt` and `captions.txt` exactly when it is `text`, its
bytes are the UTF-8 encoding of the edited transcript, and it is served
with MIME type `text/plain`. -/
theorem download_artifact_naming (w : World) (inp : Inputs) (uploaded : UploadedFile)
    (mp3 : List Nat) (t : PyValue)
    (hu : inp.uploaded = some uploaded) (hs : w.saveErr = none)
    (hx : inp.do_extract = true) (ht : inp.do_transcribe = true)
    (hd : w.decode uploaded.content = .ok mp3)
    (hw : w.whisper mp3 inp.resp_format = .ok t)
    (hf : inp.resp_format = "srt" ∨ inp.resp_format = "text") :
    ∃ st dl rest, mainFlow w inp = .ok st ∧ st.downloads = dl :: rest ∧
      dl.mime = "text/plain" ∧
      dl.data = utf8EncodeCodes (stringCodes (inp.edit (pyStr t))) ∧
      (dl.file_name = "captions.srt" ↔ inp.resp_format = "srt") ∧
      (dl.file_name = "captions.txt" ↔ inp.resp_format = "text") := by
  rcases hf with hf | hf <;> rw [hf] at hw
  · exact ⟨
      { videos := [uploaded.content]
        audios := [w.audioTmpPath]
        successes := ["Audio wyodrębnione ✔️", "Transkrypcja zakończona ✔️"]
        downloads :=
          [{ label := "⬇️ Pobierz napisy"
             data := bytes_for_download (inp.edit (pyStr t))
             file_name := "captions.srt"
             mime := "text/plain" },
           { label := "⬇️ Pobierz napisy jako .txt (bez czasu)"
             data := bytes_for_download (inp.edit (pyStr t))
             file_name := "captions.txt"
             mime := "text/plain" }]
        audioArtifact := some { path := w.audioTmpPath, content := mp3 }
        transcribeCalls := [({ path := w.audioTmpPath, content := mp3 }, "srt")] },
      { label := "⬇️ Pobierz napisy"
        data := bytes_for_download (inp.edit (pyStr t))
        file_name := "captions.srt"
        mime := "text/plain" },
      [{ label := "⬇️ Pobierz napisy jako .txt (bez czasu)"
         data := bytes_for_download (inp.edit (pyStr t))
         file_name := "captions.txt"
         mime := "text/plain" }],
      by simp [mainFlow, extract_audio_to_mp3, transcribe_audio, save_uploaded_file_to_temp,
           hu, hs, hx, hd, ht, hw, coerceStr_eq_pyStr, hf],
      rfl, rfl, rfl,
      by rw [hf]
         show ("captions.srt" : String) = "captions.srt" ↔ ("srt" : String) = "srt"
         decide,
      by rw [hf]
         show ("captions.srt" : String) = "captions.txt" ↔ ("srt" : String) = "text"
         decide⟩
  · have hne : ¬ (("text" : String) = "srt") := by decide
    exact ⟨
      { videos := [uploaded.content]
        audios := [w.audioTmpPath]
        successes := ["Audio wyodrębnione ✔️", "Transkrypcja zakończona ✔️"]
        downloads :=
          [{ label := "⬇️ Pobierz napisy"
             data := bytes_for_download (inp.edit (pyStr t))
             file_name := "captions.txt"
             mime := "text/plain" }]
        audioArtifact := some { path := w.audioTmpPath, content := mp3 }
        transcribeCalls := [({ path := w.audioTmpPath, content := mp3 }, "text")] },
      { label := "⬇️ Pobierz napisy"
        data := bytes_for_download (inp.edit (pyStr t))
        file_name := "captions.txt"
        mime := "text/plain" },
      [],
      by simp [mainFlow, extract_audio_to_mp3, transcribe_audio, save_uploaded_file_to_temp,
           hu, hs, hx, hd, ht, hw, coerceStr_eq_pyStr, hf, hne],
      rfl, rfl, rfl,
      by rw [hf]
         show ("captions.txt" : String) = "captions.srt" ↔ ("text" : String) = "srt"
         decide,
      by rw [hf]
         show ("captions.txt" : String) = "captions.txt" ↔ ("text" : String) = "text"
         decide⟩

/-- C5 witness on a concrete successful run with format `srt`. -/
theorem download_artifact_naming_witness :
    ∃ st dl rest,
      mainFlow
          { saveErr := none, videoTmpBase := "tmpvid", audioTmpPath := "tmpaud.mp3",
            decode := fun _ => Except.ok [9],
            whisper := fun _ _ => Except.ok (.str "hello") }
          { uploaded := some ⟨"clip.mp4", [1]⟩, do_extract := true, resp_format := "srt",
            do_transcribe := true, edit := fun s => s } = .ok st ∧
      st.downloads = dl :: rest ∧ dl.mime = "text/plain" ∧
      dl.data = utf8EncodeCodes (stringCodes "hello") ∧
      (dl.file_name = "captions.srt" ↔ ("srt" : String) = "srt") ∧
      (dl.file_name = "captions.txt" ↔ ("srt" : String) = "text") :=
  download_artifact_naming _ _ ⟨"clip.mp4", [1]⟩ [9] (.str "hello")
    rfl rfl rfl rfl rfl rfl (Or.inl rfl)

/-- C9: with format `srt`, the secondary "as .txt (without timestamps)"
download serves bytes identical to the primary `.srt` download for every
edited string — no timestamp stripping or any other transformation — and
only the filename differs. -/
theorem srt_txt_downloads_identical (w : World) (inp : Inputs) (uploaded : UploadedFile)
    (mp3 : List Nat) (t : PyValue)
    (hu : inp.uploaded = some uploaded) (hs : w.saveErr = none)
    (hx : inp.do_extract = true) (ht : inp.do_transcribe = true)
    (hd : w.decode uploaded.content = .ok mp3)
    (hw : w.whisper mp3 inp.resp_format = .ok t)
    (hf : inp.resp_format = "srt") :
    ∃ st d1 d2, mainFlow w inp = .ok st ∧ st.downloads = [d1, d2] ∧
      d1.data = d2.data ∧ d1.data = bytes_for_download (inp.edit (pyStr t)) ∧
      d1.file_name = "captions.srt" ∧ d2.file_name = "captions.txt" ∧
      d1.mime = d2.mime := by
  rw [hf] at hw
  exact ⟨
    { videos := [uploaded.content]
      audios := [w.audioTmpPath]
      successes := ["Audio wyodrębnione ✔️", "Transkrypcja zakończona ✔️"]
      downloads :=
        [{ label := "⬇️ Pobierz napisy"
           data := bytes_for_download (inp.edit (pyStr t))
           file_name := "captions.srt"
           mime := "text/plain" },
         { label := "⬇️ Pobierz napisy jako .txt (bez czasu)"
           data := bytes_for_download (inp.edit (pyStr t))
           file_name := "captions.txt"
           mime := "text/plain" }]
      audioArtifact := some { path := w.audioTmpPath, content := mp3 }
      transcribeCalls := [({ path := w.audioTmpPath, content := mp3 }, "srt")] },
    { label := "⬇️ Pobierz napisy"
      data := bytes_for_download (inp.edit (pyStr t))
      file_name := "captions.srt"
      mime := "text/plain" },
    { label := "⬇️ Pobierz napisy jako .txt (bez czasu)"
      data := bytes_for_download (inp.edit (pyStr t))
      file_name := "captions.txt"
      mime := "text/plain" },
    by simp [mainFlow, extract_audio_to_mp3, transcribe_audio, save_uploaded_file_to_temp,
         hu, hs, hx, hd, ht, hw, coerceStr_eq_pyStr, hf],
    rfl, rfl, rfl, rfl, rfl, rfl⟩

/-- C9 witness on a concrete successful run with format `srt`. -/
theorem srt_txt_downloads_identical_witness :
    ∃ st d1 d2,
      mainFlow
          { saveErr := none, videoTmpBase := "tmpvid", audioTmpPath := "tmpaud.mp3",
            decode := fun _ => Except.ok [9],
            whisper := fun _ _ => Except.ok (.str "1\n00:00:00,000 --> 00:00:01,000\nHi\n") }
          { uploaded := some ⟨"clip.mp4", [1]⟩, do_extract := true, resp_format := "srt",
            do_transcribe := true, edit := fun s => s } = .ok st ∧
      st.downloads = [d1, d2] ∧ d1.data = d2.data ∧
      d1.data = bytes_for_download "1\n00:00:00,000 --> 00:00:01,000\nHi\n" ∧
      d1.file_name = "captions.srt" ∧ d2.file_name = "captions.txt" ∧
      d1.mime = d2.mime :=
  srt_txt_downloads_identical _ _ ⟨"clip.mp4", [1]⟩ [9]
    (.str "1\n00:00:00,000 --> 00:00:01,000\nHi\n") rfl rfl rfl rfl rfl rfl rfl

end GenNapisy
